import Mathlib

/-!
Verification of the `mvtcurl` Mapbox-Vector-Tile decoder (`src/lib.rs`,
duplicated in `src/main.rs`).  The Rust core is shallowly embedded:

* `u32` values become `Nat` (with `% 2^32` truncation applied where the
  source performs a 32-bit cast), `i32` values become `Int` with
  two's-complement wrap-around (`wrap32`) at every `i32` addition and
  `xor32` for the `i32` bitwise XOR;
* `serde_json::Value` becomes the inductive `Json`, with `f64` numbers
  modelled by exact rationals (every concrete value appearing in the
  claims is a small integer divided by a power of two, which `f64`
  represents exactly);
* the `while` loop of `decode_geometry` becomes a fuel-indexed structural
  recursion (`decode_geometry_loop`); the fuel `geometry.length` dominates
  the iteration count because every iteration consumes at least the
  command integer itself;
* `HashMap<String, Value>` becomes an association list with
  overwrite-on-insert (`insertProp`); only facts independent of the
  hash-map iteration order are stated about it;
* the `prost` protobuf decode of the `Tile` message is an external
  collaborator (out of scope per the spec) and is abstracted as a
  function parameter of `mvt_to_json`.
-/

namespace Mvtcurl

/-- Truncation of a natural number to the unsigned 32-bit range, used where
the Rust source fixes a value's type to `u32`. -/
def u32 (n : Nat) : Nat := n % 2^32

/-- Two's-complement 32-bit pattern of an integer (the bit pattern of the
Rust `i32` holding it). -/
def toU32 (z : Int) : Nat := (z % 2^32).toNat

/-- Reinterpretation of a 32-bit pattern as a signed 32-bit integer. -/
def ofU32 (n : Nat) : Int := if n < 2^31 then (n : Int) else (n : Int) - 2^32

/-- Bitwise XOR of two `i32` values (Rust `^` on `i32`). -/
def xor32 (a b : Int) : Int := ofU32 (Nat.xor (toU32 a) (toU32 b))

/-- Result of a signed 32-bit addition with two's-complement wrap-around,
modelling Rust `i32` `+=` (release-profile overflow semantics). -/
def wrap32 (z : Int) : Int := (z + 2^31) % 2^32 - 2^31

/-- Embeds `decode_zigzag` (src/lib.rs lines 152-154):
`((value >> 1) as i32) ^ (-((value & 1) as i32))` on a `u32` argument. -/
def decode_zigzag (value : Nat) : Int :=
  xor32 ((u32 value >>> 1 : Nat) : Int) (-((u32 value &&& 1 : Nat) : Int))

/-- Embeds `parse_command` (src/lib.rs lines 156-160):
`(cmd_int & 0x7, (cmd_int >> 3) as usize)` on a `u32` argument. -/
def parse_command (cmd_int : Nat) : Nat × Nat :=
  (u32 cmd_int &&& 0x7, u32 cmd_int >>> 3)

/-- The layer extent, embedding the single-field struct `Extent(u32)`. -/
abbrev Extent := Nat

/-- Embeds `Extent::normalize` (src/lib.rs lines 37-39):
`value as f64 / self.0 as f64`, with `f64` division modelled exactly on ℚ. -/
def Extent.normalize (extent : Extent) (value : Int) : ℚ :=
  (value : ℚ) / (extent : ℚ)

/-- Embeds `DEFAULT_EXTENT` (src/lib.rs line 10). -/
def DEFAULT_EXTENT : Nat := 4096

/-- Shallow model of `serde_json::Value`; `f64` numbers are modelled as
exact rationals. -/
inductive Json where
  | null : Json
  | bool (b : Bool) : Json
  | num (q : ℚ) : Json
  | str (s : String) : Json
  | arr (elems : List Json) : Json
  deriving Repr

/-- The `GeomType` enum generated from `vector_tile.proto`
(`Unknown = 0, Point = 1, Linestring = 2, Polygon = 3`). -/
inductive GeomType where
  | unknown : GeomType
  | point : GeomType
  | linestring : GeomType
  | polygon : GeomType
  deriving Repr, DecidableEq

/-- The mutable state of the `decode_geometry` walk: the `coordinates`
vector under construction and the cursor `x`, `y` (`i32` in the source). -/
structure GeoState where
  coordinates : List Json
  x : Int
  y : Int
  deriving Repr

/-- Embeds the idiom
`if let Some(last) = coordinates.last_mut() { if let Some(arr) = last.as_array_mut() { arr.push(pt) } }`:
push `pt` inside the final element when that element is a JSON array,
otherwise leave the list unchanged (also when the list is empty). -/
def pushLast : List Json → Json → List Json
  | [], _ => []
  | [last], pt =>
      match last with
      | Json.arr a => [Json.arr (a ++ [pt])]
      | other => [other]
  | j :: rest, pt => j :: pushLast rest pt

/-- One repetition of a MoveTo (`isMoveTo = true`, src/lib.rs lines
179-209) or LineTo (`isMoveTo = false`, lines 212-230) command: decode the
two zigzag parameters, accumulate them into the cursor with `i32`
wrap-around, normalize, and place the point according to the geometry
type.  A MoveTo on LineString/Polygon first appends an empty ring, but
only when the coordinate list is still empty (the `coordinates.is_empty()`
guard at line 198). -/
def repStep (extent : Extent) (geom_type : GeomType) (isMoveTo : Bool)
    (st : GeoState) (px py : Nat) : GeoState :=
  let dx := decode_zigzag px
  let dy := decode_zigzag py
  let x := wrap32 (st.x + dx)
  let y := wrap32 (st.y + dy)
  let pt := Json.arr [Json.num (Extent.normalize extent x),
                      Json.num (Extent.normalize extent y)]
  let coordinates :=
    if isMoveTo then
      match geom_type with
      | GeomType.point => st.coordinates ++ [pt]
      | GeomType.linestring =>
          pushLast (if st.coordinates.isEmpty then [Json.arr []] else st.coordinates) pt
      | GeomType.polygon =>
          pushLast (if st.coordinates.isEmpty then [Json.arr []] else st.coordinates) pt
      | GeomType.unknown => st.coordinates
    else
      pushLast st.coordinates pt
  { coordinates := coordinates, x := x, y := y }

/-- The `for _ in 0..count` repetition loop of a MoveTo/LineTo command
(src/lib.rs lines 179-209 and 212-230).  Each repetition consumes two
parameter integers from the remainder of the geometry array; when fewer
than two integers remain (`i + 1 >= geometry.len()`) the loop breaks,
leaving the remainder and the state untouched. -/
def runReps (extent : Extent) (geom_type : GeomType) (isMoveTo : Bool) :
    Nat → List Nat → GeoState → List Nat × GeoState
  | 0, rest, st => (rest, st)
  | n+1, px :: py :: rest, st =>
      runReps extent geom_type isMoveTo n rest (repStep extent geom_type isMoveTo st px py)
  | _+1, rest, st => (rest, st)

/-- The outer `while i < geometry.len()` loop of `decode_geometry`
(src/lib.rs lines 172-235), written as a fuel-indexed recursion: each
iteration reads one command integer, dispatches on `cmd` (`1` MoveTo, `2`
LineTo, everything else — including `7` ClosePath — a no-op), and
continues on the remainder.  Fuel `geometry.length` suffices since every
iteration consumes at least the command integer. -/
def decode_geometry_loop (extent : Extent) (geom_type : GeomType) :
    Nat → List Nat → GeoState → GeoState
  | 0, _, st => st
  | _+1, [], st => st
  | fuel+1, cmd_int :: rest, st =>
      let pc := parse_command cmd_int
      if pc.1 = 1 then
        let r := runReps extent geom_type true pc.2 rest st
        decode_geometry_loop extent geom_type fuel r.1 r.2
      else if pc.1 = 2 then
        let r := runReps extent geom_type false pc.2 rest st
        decode_geometry_loop extent geom_type fuel r.1 r.2
      else
        decode_geometry_loop extent geom_type fuel rest st

/-- The coordinate list produced by the geometry walk for one feature,
before shape collapsing (the `coordinates` vector at src/lib.rs line 236). -/
def producedCoords (geometry : List Nat) (geom_type : GeomType) (extent : Extent) :
    List Json :=
  (decode_geometry_loop extent geom_type geometry.length geometry
    { coordinates := [], x := 0, y := 0 }).coordinates

/-- Embeds `decode_geometry` (src/lib.rs lines 162-244): run the walk from
cursor `(0, 0)` and an empty coordinate list, then apply the shape
collapsing match of lines 237-243. -/
def decode_geometry (geometry : List Nat) (geom_type : GeomType) (extent : Extent) :
    Json :=
  match geom_type, producedCoords geometry geom_type extent with
  | GeomType.point, [c] => c
  | GeomType.linestring, [c] => c
  | _, cs => Json.arr cs

/-- Shallow model of the protobuf `Value` record (`vector_tile.proto`):
seven optional typed fields; `float` and `double` are modelled as exact
rationals, like every other `f64` here. -/
structure VTValue where
  string_value : Option String := none
  float_value : Option ℚ := none
  double_value : Option ℚ := none
  int_value : Option Int := none
  uint_value : Option Nat := none
  sint_value : Option Int := none
  bool_value : Option Bool := none
  deriving Repr

/-- Default (fully absent) `Value` record. -/
def defaultVTValue : VTValue := {}

/-- The empty string, the panic-free default used with `List.getD` for
indexing that the source guards by a bounds check. -/
def emptyString : String := ""

/-- Embeds `convert_value` (src/lib.rs lines 246-264): an `if let` chain
trying `string`, `float`, `double`, `int`, `uint`, `sint`, `bool` in that
order; a record with no populated field becomes JSON null. -/
def convert_value (value : VTValue) : Json :=
  match value.string_value with
  | some v => Json.str v
  | none =>
    match value.float_value with
    | some v => Json.num v
    | none =>
      match value.double_value with
      | some v => Json.num v
      | none =>
        match value.int_value with
        | some v => Json.num (v : ℚ)
        | none =>
          match value.uint_value with
          | some v => Json.num (v : ℚ)
          | none =>
            match value.sint_value with
            | some v => Json.num (v : ℚ)
            | none =>
              match value.bool_value with
              | some v => Json.bool v
              | none => Json.null

/-- Insertion into the property map, modelling `HashMap::insert`: the
value stored under an existing key is overwritten. -/
def insertProp (props : List (String × Json)) (key : String) (value : Json) :
    List (String × Json) :=
  props.filter (fun p => !(p.1 == key)) ++ [(key, value)]

/-- Embeds the tag-resolution loop of `mvt_to_json` (src/lib.rs lines
299-310): walk the tag array two indices at a time; a pair is resolved
and inserted only when both indices are in bounds of the layer
dictionaries; an unpaired trailing index is ignored. -/
def resolve_tags (keys : List String) (values : List VTValue) :
    List Nat → List (String × Json) → List (String × Json)
  | [], props => props
  | [_], props => props
  | key_idx :: val_idx :: rest, props =>
      resolve_tags keys values rest
        (if key_idx < keys.length ∧ val_idx < values.length then
          insertProp props (keys.getD key_idx emptyString)
            (convert_value (values.getD val_idx defaultVTValue))
        else props)

/-- Flattening of a list of (key index, value index) pairs into the tag
array encoding them. -/
def pairsFlat (pairs : List (Nat × Nat)) : List Nat :=
  pairs.flatMap (fun p => [p.1, p.2])

/-- Sample dictionary key used in concrete witnesses. -/
def keyName : String := "name"

/-- Second sample dictionary key. -/
def keyKind : String := "kind"

/-- Sample dictionary value string. -/
def strTokyo : String := "tokyo"

/-- Sample layer key dictionary. -/
def sampleKeys : List String := [keyName, keyKind]

/-- Sample layer value dictionary (a single string-typed record). -/
def sampleValues : List VTValue := [{ string_value := some strTokyo }]

/-- Sample record with several populated fields: string must win. -/
def vMulti : VTValue :=
  { string_value := some strTokyo, float_value := some 2, bool_value := some true }

/-- Sample record with float and double populated but no string: float
must win. -/
def vNum : VTValue := { float_value := some 2, double_value := some 3 }

/-- Shallow model of the protobuf `Feature` message: optional id,
optional geometry-type code (`r#type`), tag index array, geometry
command array. -/
structure VTFeature where
  id : Option Nat := none
  geom_type_code : Option Nat := none
  tags : List Nat := []
  geometry : List Nat := []
  deriving Repr

/-- Shallow model of the protobuf `Layer` message. -/
structure VTLayer where
  name : String
  extent : Option Nat := none
  version : Nat := 0
  keys : List String := []
  values : List VTValue := []
  features : List VTFeature := []
  deriving Repr

/-- Shallow model of the protobuf `Tile` message. -/
structure Tile where
  layers : List VTLayer
  deriving Repr

/-- The constant type tag of every output feature record. -/
def featureTag : String := "Feature"

/-- Output feature record (`GeoJsonFeature` at src/lib.rs lines 88-96,
its geometry record inlined as a type string plus coordinates). -/
structure GeoJsonFeature where
  type_ : String
  id : Option Nat
  geometry_type : String
  coordinates : Json
  properties : List (String × Json)
  deriving Repr

/-- Output layer record (src/lib.rs lines 105-111). -/
structure Layer where
  name : String
  extent : Nat
  version : Nat
  features : List GeoJsonFeature
  deriving Repr

/-- Output document record (src/lib.rs lines 113-116). -/
structure TileData where
  layers : List Layer
  deriving Repr

/-- Embeds `GeomType::try_from(feature.r#type.unwrap_or(0)).unwrap_or(Unknown)`
(src/lib.rs lines 284-285): codes 1, 2, 3 map to Point, LineString,
Polygon; code 0 and every unrecognized code fall back to Unknown. -/
def geomTypeOfCode (code : Nat) : GeomType :=
  match code with
  | 1 => GeomType.point
  | 2 => GeomType.linestring
  | 3 => GeomType.polygon
  | _ => GeomType.unknown

/-- The geometry-type string of the output record (src/lib.rs lines
287-292). -/
def geomTypeName : GeomType → String
  | GeomType.point => "Point"
  | GeomType.linestring => "LineString"
  | GeomType.polygon => "Polygon"
  | GeomType.unknown => "Unknown"

/-- The per-feature body of the layer loop in `mvt_to_json` (src/lib.rs
lines 283-320): resolve the geometry type, decode the geometry, resolve
the tags, assemble the feature record. -/
def decodeFeature (keys : List String) (values : List VTValue) (extent : Extent)
    (feature : VTFeature) : GeoJsonFeature :=
  let geom_type := geomTypeOfCode (feature.geom_type_code.getD 0)
  { type_ := featureTag
    id := feature.id
    geometry_type := geomTypeName geom_type
    coordinates := decode_geometry feature.geometry geom_type extent
    properties := resolve_tags keys values feature.tags [] }

/-- The per-layer body of `mvt_to_json` (src/lib.rs lines 278-329):
resolve the extent (layer-provided or the default 4096), decode every
feature, pass the name and version through. -/
def decodeLayer (layer : VTLayer) : Layer :=
  let extent := layer.extent.getD DEFAULT_EXTENT
  { name := layer.name
    extent := extent
    version := layer.version
    features := layer.features.map (decodeFeature layer.keys layer.values extent) }

/-- The assembly stage of `mvt_to_json` (src/lib.rs lines 276-331): once
a `Tile` message is in hand, the whole document is built by a total
function — no internal condition can fail. -/
def decodeTile (tile : Tile) : TileData :=
  { layers := tile.layers.map decodeLayer }

/-- Embeds `mvt_to_json` (src/lib.rs lines 273-332).  The first line of
the source, `vector_tile::Tile::decode(data)`, is the external `prost`
protobuf decoder (out of scope per the spec §1/§6); it is abstracted here
as the function argument `decodeProto`.  Its error is propagated with
`?`; on success the document is assembled by `decodeTile`. -/
def mvt_to_json (decodeProto : List Nat → Except String Tile)
    (data : List Nat) : Except String TileData :=
  match decodeProto data with
  | Except.error e => Except.error e
  | Except.ok tile => Except.ok (decodeTile tile)

/-- Sample feature: a Polygon with an id, corrupt tag entries, and a
two-MoveTo geometry, exercising every absorbing path of the assembly. -/
def sampleFeature : VTFeature :=
  { id := some 7
    geom_type_code := some 3
    tags := [0, 0, 5, 0, 1, 0, 1, 9, 3]
    geometry := [9, 0, 0, 9, 2, 2] }

/-- Sample layer wrapping `sampleFeature`. -/
def sampleLayer : VTLayer :=
  { name := keyName
    extent := some 4096
    version := 2
    keys := sampleKeys
    values := sampleValues
    features := [sampleFeature] }

/-- Sample tile wrapping `sampleLayer`. -/
def sampleTile : Tile := { layers := [sampleLayer] }

/-- External decoder stub that succeeds with `sampleTile`. -/
def okDecoder : List Nat → Except String Tile := fun _ => Except.ok sampleTile

/-- The error message attached by the source to a protobuf decode
failure. -/
def errMsg : String := "Failed to decode MVT protobuf"

/-- External decoder stub that fails. -/
def errDecoder : List Nat → Except String Tile := fun _ => Except.error errMsg

/-- Cumulative sum of a list of deltas in wrap-around signed 32-bit
arithmetic, exactly as the `i32` cursor of the source accumulates them. -/
def cumsum32 (init : Int) (ds : List Int) : Int :=
  ds.foldl (fun acc d => wrap32 (acc + d)) init

/-- Normalized points generated by accumulating a list of coordinate
delta pairs into the cursor, starting from `(x, y)`. -/
def accPoints (extent : Extent) : Int → Int → List (Int × Int) → List Json
  | _, _, [] => []
  | x, y, d :: ds =>
      let x' := wrap32 (x + d.1)
      let y' := wrap32 (y + d.2)
      Json.arr [Json.num (Extent.normalize extent x'),
                Json.num (Extent.normalize extent y')]
        :: accPoints extent x' y' ds

/-- Zigzag decoding of a list of raw parameter pairs. -/
def deltasOf (ps : List (Nat × Nat)) : List (Int × Int) :=
  ps.map (fun p => (decode_zigzag p.1, decode_zigzag p.2))

/-- Geometry stream made of LineTo commands: each block of parameter
pairs is preceded by its LineTo command integer (`count * 8 + 2`, i.e.
command id 2 with that repeat count). -/
def lineToStream (blocks : List (List (Nat × Nat))) : List Nat :=
  blocks.flatMap (fun b => (b.length * 8 + 2) :: pairsFlat b)

/-- Each block is small enough for its LineTo command integer to fit in
32 bits, as every command integer of a real tile does. -/
abbrev BlocksOk (blocks : List (List (Nat × Nat))) : Prop :=
  ∀ b ∈ blocks, b.length < 2^29

/-- C9: for every 32-bit command integer `c`, `parse_command c` is the pair
`(c &&& 7, c >>> 3)` — equivalently `(c % 8, c / 8)` — and in particular
`parse_command 9 = (1, 1)`, `parse_command 18 = (2, 2)` and
`parse_command 15 = (7, 1)`. -/
theorem parse_command_spec (c : Nat) (hc : c < 2^32) :
    parse_command c = (c &&& 7, c >>> 3)
    ∧ parse_command c = (c % 8, c / 8)
    ∧ parse_command 9 = (1, 1) ∧ parse_command 18 = (2, 2)
    ∧ parse_command 15 = (7, 1) := by
  have hc' : c < 4294967296 := by norm_num at hc; exact hc
  have hmod : c % 4294967296 = c := Nat.mod_eq_of_lt hc'
  refine ⟨?_, ?_, by decide, by decide, by decide⟩
  · simp [parse_command, u32, hmod]
  · have h1 : c &&& 7 = c % 8 := by
      have h := Nat.and_pow_two_sub_one_eq_mod c 3
      norm_num at h
      exact h
    have h2 : c >>> 3 = c / 8 := by
      simp [Nat.shiftRight_eq_div_pow]
    simp [parse_command, u32, hmod, h1, h2]

/-- Witness for C9 at the concrete command integer `c = 26`
(`MoveTo` with repeat count 3). -/
theorem parse_command_spec_witness :
    (26 : Nat) < 2^32 ∧ parse_command 26 = (26 % 8, 26 / 8) :=
  ⟨by decide, (parse_command_spec 26 (by decide)).2.1⟩

/-- Bound for the 32-bit pattern of any integer. -/
theorem toU32_lt (z : Int) : toU32 z < 2^32 := by
  have h1 : 0 ≤ z % 2^32 := Int.emod_nonneg z (by norm_num)
  have h2 : z % 2^32 < 2^32 := Int.emod_lt_of_pos z (by norm_num)
  simp only [toU32]
  omega

/-- Range of a reinterpreted 32-bit pattern. -/
theorem ofU32_range (n : Nat) (hn : n < 2^32) :
    -(2^31) ≤ ofU32 n ∧ ofU32 n < 2^31 := by
  simp only [ofU32]
  split <;> omega

/-- C8: for every unsigned 32-bit integer `v`, `decode_zigzag v` is the
two's-complement 32-bit value `(v >>> 1) XOR -(v &&& 1)`, lies in the
signed 32-bit range (the function is total over `u32` with no error case),
and maps `0, 1, 2, 3, 4` to `0, -1, 1, -2, 2`. -/
theorem decode_zigzag_spec (value : Nat) (hv : value < 2^32) :
    decode_zigzag value
      = xor32 ((value >>> 1 : Nat) : Int) (-((value &&& 1 : Nat) : Int))
    ∧ (-(2^31) ≤ decode_zigzag value ∧ decode_zigzag value < 2^31)
    ∧ decode_zigzag 0 = 0 ∧ decode_zigzag 1 = -1 ∧ decode_zigzag 2 = 1
    ∧ decode_zigzag 3 = -2 ∧ decode_zigzag 4 = 2 := by
  have hv' : value < 4294967296 := by norm_num at hv; exact hv
  have hmod : value % 4294967296 = value := Nat.mod_eq_of_lt hv'
  refine ⟨by simp [decode_zigzag, u32, hmod], ?_,
    by decide, by decide, by decide, by decide, by decide⟩
  have hlt : Nat.xor (toU32 ((u32 value >>> 1 : Nat) : Int))
      (toU32 (-((u32 value &&& 1 : Nat) : Int))) < 2^32 :=
    Nat.xor_lt_two_pow (toU32_lt _) (toU32_lt _)
  exact ofU32_range _ hlt

/-- Witness for C8 at the concrete input `v = 5` (odd, so the decoded
delta is negative). -/
theorem decode_zigzag_spec_witness :
    (5 : Nat) < 2^32
    ∧ decode_zigzag 5
        = xor32 ((5 >>> 1 : Nat) : Int) (-((5 &&& 1 : Nat) : Int)) :=
  ⟨by decide, (decode_zigzag_spec 5 (by decide)).1⟩

/-- The repetition loop does nothing on an exhausted geometry array. -/
theorem runReps_nil (extent : Extent) (geom_type : GeomType) (isMoveTo : Bool)
    (n : Nat) (st : GeoState) :
    runReps extent geom_type isMoveTo n [] st = ([], st) := by
  cases n <;> rfl

/-- The outer loop does nothing on an exhausted geometry array. -/
theorem decode_geometry_loop_nil (extent : Extent) (geom_type : GeomType)
    (fuel : Nat) (st : GeoState) :
    decode_geometry_loop extent geom_type fuel [] st = st := by
  cases fuel <;> rfl

/-- A single leftover integer is read as a command but can never emit a
coordinate, since no parameter pair can follow it. -/
theorem decode_geometry_loop_single (extent : Extent) (geom_type : GeomType)
    (fuel : Nat) (a : Nat) (st : GeoState) :
    decode_geometry_loop extent geom_type fuel [a] st = st := by
  cases fuel with
  | zero => rfl
  | succ fuel =>
      simp [decode_geometry_loop, runReps_nil, decode_geometry_loop_nil]

/-- C5: silent truncation.  When a MoveTo or LineTo repetition needs a
coordinate pair but fewer than two integers remain in the geometry array,
the repetition loop stops at once, keeping every previously decoded point
and the cursor untouched; the at-most-one leftover integer is then read
as a command that can never emit a coordinate, whatever its value and
whatever the remaining fuel — decoding is total, no error is raised. -/
theorem decode_geometry_truncation_silent (extent : Extent) (geom_type : GeomType)
    (isMoveTo : Bool) (st : GeoState) (n : Nat) (rest : List Nat)
    (hrest : rest.length < 2) :
    runReps extent geom_type isMoveTo (n+1) rest st = (rest, st)
    ∧ ∀ (st' : GeoState) (fuel : Nat),
        decode_geometry_loop extent geom_type fuel rest st' = st' := by
  match rest, hrest with
  | [], _ =>
      exact ⟨rfl, fun st' fuel => decode_geometry_loop_nil extent geom_type fuel st'⟩
  | [a], _ =>
      exact ⟨rfl, fun st' fuel => decode_geometry_loop_single extent geom_type fuel a st'⟩

/-- Witness for C5: a MoveTo wanting one repetition, with a single
parameter integer left, emits nothing and keeps the state. -/
theorem decode_geometry_truncation_witness :
    ([5] : List Nat).length < 2
    ∧ runReps 4096 GeomType.linestring true 1 [5]
        { coordinates := [], x := 0, y := 0 }
        = ([5], { coordinates := [], x := 0, y := 0 }) :=
  ⟨by decide, (decode_geometry_truncation_silent 4096 GeomType.linestring true
      { coordinates := [], x := 0, y := 0 } 0 [5] (by decide)).1⟩

/-- C4: shape collapsing after the walk (src/lib.rs lines 237-243).  A
Point feature whose walk produced exactly one element yields that bare
element; a LineString feature whose walk produced exactly one ring yields
that ring directly; a Polygon feature always yields the full list of
rings, whatever their number. -/
theorem decode_geometry_shape_collapsing (geometry : List Nat) (extent : Extent) :
    (∀ c : Json, producedCoords geometry GeomType.point extent = [c] →
        decode_geometry geometry GeomType.point extent = c)
    ∧ (∀ c : Json, producedCoords geometry GeomType.linestring extent = [c] →
        decode_geometry geometry GeomType.linestring extent = c)
    ∧ decode_geometry geometry GeomType.polygon extent
        = Json.arr (producedCoords geometry GeomType.polygon extent) := by
  refine ⟨?_, ?_, ?_⟩
  · intro c h; simp [decode_geometry, h]
  · intro c h; simp [decode_geometry, h]
  · simp [decode_geometry]

/-- Witness for C4: a single-MoveTo Point feature collapses to the bare
coordinate pair, the same stream as LineString collapses to a flat
one-point ring, and a two-MoveTo Polygon keeps the full ring structure. -/
theorem decode_geometry_shape_collapsing_witness :
    producedCoords [9, 2, 2] GeomType.point 4096
        = [Json.arr [Json.num (1/4096), Json.num (1/4096)]]
    ∧ decode_geometry [9, 2, 2] GeomType.point 4096
        = Json.arr [Json.num (1/4096), Json.num (1/4096)]
    ∧ decode_geometry [9, 2, 2] GeomType.linestring 4096
        = Json.arr [Json.arr [Json.num (1/4096), Json.num (1/4096)]]
    ∧ decode_geometry [9, 0, 0, 9, 2, 2] GeomType.polygon 4096
        = Json.arr (producedCoords [9, 0, 0, 9, 2, 2] GeomType.polygon 4096) :=
  ⟨by with_unfolding_all rfl,
   (decode_geometry_shape_collapsing [9, 2, 2] 4096).1 _ (by with_unfolding_all rfl),
   (decode_geometry_shape_collapsing [9, 2, 2] 4096).2.1 _ (by with_unfolding_all rfl),
   (decode_geometry_shape_collapsing [9, 0, 0, 9, 2, 2] 4096).2.2⟩

/-- C1 is refuted by the code: on the Polygon geometry stream
`[9, 0, 0, 9, 2, 2]` — two separate MoveTo commands of one repetition
each — the decoder produces a SINGLE ring holding both points instead of
two rings.  The empty-ring push at src/lib.rs line 198 is guarded by
`coordinates.is_empty()`, so only the very first MoveTo of a feature
starts a ring; every later MoveTo appends its point to the current ring
exactly like a LineTo. -/
theorem decode_geometry_two_moveTo_single_ring :
    decode_geometry [9, 0, 0, 9, 2, 2] GeomType.polygon 4096
      = Json.arr [Json.arr
          [Json.arr [Json.num 0, Json.num 0],
           Json.arr [Json.num (1/4096), Json.num (1/4096)]]] := by
  with_unfolding_all rfl

/-- C6: the tag array is iterated two-at-a-time; after any even-aligned
prefix, (1) an unpaired trailing index is ignored, (2) a pair with an
out-of-bounds key or value index is silently skipped — resolution
continues exactly as if the pair were absent — and (3) an in-bounds pair
is resolved against the dictionaries and retained in the mapping.  No
case raises an error. -/
theorem resolve_tags_skip_invalid (keys : List String) (values : List VTValue)
    (pairs : List (Nat × Nat)) (props : List (String × Json)) :
    (∀ t : Nat, resolve_tags keys values (pairsFlat pairs ++ [t]) props
        = resolve_tags keys values (pairsFlat pairs) props)
    ∧ (∀ (key_idx val_idx : Nat) (post : List Nat),
        ¬(key_idx < keys.length ∧ val_idx < values.length) →
        resolve_tags keys values (pairsFlat pairs ++ key_idx :: val_idx :: post) props
          = resolve_tags keys values (pairsFlat pairs ++ post) props)
    ∧ (∀ (key_idx val_idx : Nat),
        key_idx < keys.length → val_idx < values.length →
        resolve_tags keys values (pairsFlat pairs ++ [key_idx, val_idx]) props
          = insertProp (resolve_tags keys values (pairsFlat pairs) props)
              (keys.getD key_idx emptyString)
              (convert_value (values.getD val_idx defaultVTValue))) := by
  induction pairs generalizing props with
  | nil =>
      refine ⟨fun t => rfl, fun ki vi post h => ?_, fun ki vi hk hv => ?_⟩
      · simp [pairsFlat, resolve_tags, if_neg h]
      · simp [pairsFlat, resolve_tags, if_pos (And.intro hk hv)]
  | cons p ps ih =>
      have hflat : pairsFlat (p :: ps) = p.1 :: p.2 :: pairsFlat ps := by
        simp [pairsFlat]
      refine ⟨fun t => ?_, fun ki vi post h => ?_, fun ki vi hk hv => ?_⟩
      · simp only [hflat, List.cons_append, resolve_tags]
        exact (ih _).1 t
      · simp only [hflat, List.cons_append, resolve_tags]
        exact (ih _).2.1 ki vi post h
      · simp only [hflat, List.cons_append, resolve_tags]
        exact (ih _).2.2 ki vi hk hv

/-- Witness for C6 on concrete dictionaries of two keys and one value:
a trailing unpaired index is dropped, the out-of-bounds pair `(5, 0)` is
skipped while resolution continues, the in-bounds pair `(1, 0)` is
retained, and the fully resolved mapping holds both valid pairs. -/
theorem resolve_tags_skip_invalid_witness :
    resolve_tags sampleKeys sampleValues (pairsFlat [(0, 0)] ++ [3]) []
      = resolve_tags sampleKeys sampleValues (pairsFlat [(0, 0)]) []
    ∧ ¬((5 : Nat) < sampleKeys.length ∧ (0 : Nat) < sampleValues.length)
    ∧ resolve_tags sampleKeys sampleValues (pairsFlat [(0, 0)] ++ 5 :: 0 :: [1, 0]) []
      = resolve_tags sampleKeys sampleValues (pairsFlat [(0, 0)] ++ [1, 0]) []
    ∧ (1 : Nat) < sampleKeys.length ∧ (0 : Nat) < sampleValues.length
    ∧ resolve_tags sampleKeys sampleValues (pairsFlat [(0, 0)] ++ [1, 0]) []
      = insertProp (resolve_tags sampleKeys sampleValues (pairsFlat [(0, 0)]) [])
          (sampleKeys.getD 1 emptyString)
          (convert_value (sampleValues.getD 0 defaultVTValue))
    ∧ resolve_tags sampleKeys sampleValues [0, 0, 5, 0, 1, 0, 1, 9, 3] []
      = [(keyName, Json.str strTokyo), (keyKind, Json.str strTokyo)] :=
  ⟨(resolve_tags_skip_invalid sampleKeys sampleValues [(0, 0)] []).1 3,
   by decide,
   (resolve_tags_skip_invalid sampleKeys sampleValues [(0, 0)] []).2.1 5 0 [1, 0]
     (by decide),
   by decide, by decide,
   (resolve_tags_skip_invalid sampleKeys sampleValues [(0, 0)] []).2.2 1 0
     (by decide) (by decide),
   by with_unfolding_all rfl⟩

/-- C7: precedence of the typed fields in `convert_value`.  The fields are
tried in the exact order string, float, double, int, uint, sint, bool:
whichever field is populated first wins, with no condition on the later
fields — so it wins even when several are populated — and a record with
no populated field resolves to JSON null. -/
theorem convert_value_precedence (v : VTValue) :
    (∀ s, v.string_value = some s → convert_value v = Json.str s)
    ∧ (v.string_value = none → ∀ x, v.float_value = some x →
        convert_value v = Json.num x)
    ∧ (v.string_value = none → v.float_value = none → ∀ x,
        v.double_value = some x → convert_value v = Json.num x)
    ∧ (v.string_value = none → v.float_value = none → v.double_value = none →
        ∀ x, v.int_value = some x → convert_value v = Json.num (x : ℚ))
    ∧ (v.string_value = none → v.float_value = none → v.double_value = none →
        v.int_value = none → ∀ x, v.uint_value = some x →
        convert_value v = Json.num (x : ℚ))
    ∧ (v.string_value = none → v.float_value = none → v.double_value = none →
        v.int_value = none → v.uint_value = none → ∀ x,
        v.sint_value = some x → convert_value v = Json.num (x : ℚ))
    ∧ (v.string_value = none → v.float_value = none → v.double_value = none →
        v.int_value = none → v.uint_value = none → v.sint_value = none →
        ∀ x, v.bool_value = some x → convert_value v = Json.bool x)
    ∧ (v.string_value = none → v.float_value = none → v.double_value = none →
        v.int_value = none → v.uint_value = none → v.sint_value = none →
        v.bool_value = none → convert_value v = Json.null) := by
  refine ⟨?_, ?_, ?_, ?_, ?_, ?_, ?_, ?_⟩ <;> (intros; simp_all [convert_value])

/-- Witness for C7: on `vMulti` the string field wins although float and
bool are also populated; on `vNum` the float field wins over double; the
empty record resolves to null. -/
theorem convert_value_precedence_witness :
    vMulti.string_value = some strTokyo
    ∧ convert_value vMulti = Json.str strTokyo
    ∧ vNum.string_value = none ∧ vNum.float_value = some 2
    ∧ convert_value vNum = Json.num 2
    ∧ convert_value defaultVTValue = Json.null :=
  ⟨rfl,
   (convert_value_precedence vMulti).1 strTokyo rfl,
   rfl, rfl,
   (convert_value_precedence vNum).2.1 rfl 2 rfl,
   (convert_value_precedence defaultVTValue).2.2.2.2.2.2.2
     rfl rfl rfl rfl rfl rfl rfl⟩

/-- C2: `mvt_to_json` returns an error exactly when the upstream protobuf
decode of the `Tile` message fails, and that error is the propagated
decode error; once a `Tile` message is obtained, the output document is
assembled by the total function `decodeTile` — no condition internal to
geometry decoding or attribute resolution can fail. -/
theorem mvt_to_json_error_iff_decode_error
    (decodeProto : List Nat → Except String Tile) (data : List Nat) :
    ((mvt_to_json decodeProto data).isOk ↔ (decodeProto data).isOk)
    ∧ (∀ e, decodeProto data = Except.error e →
        mvt_to_json decodeProto data = Except.error e)
    ∧ (∀ tile, decodeProto data = Except.ok tile →
        mvt_to_json decodeProto data = Except.ok (decodeTile tile)) := by
  refine ⟨?_, ?_, ?_⟩
  · cases h : decodeProto data <;> simp [mvt_to_json, h, Except.isOk, Except.toBool]
  · intro e h; simp [mvt_to_json, h]
  · intro tile h; simp [mvt_to_json, h]

/-- Witness for C2: with a succeeding upstream decoder `mvt_to_json`
returns the assembled document of `sampleTile` (whose corrupt tags and
odd geometry are absorbed); with a failing upstream decoder it returns
exactly the upstream error. -/
theorem mvt_to_json_assembly_witness :
    okDecoder [] = Except.ok sampleTile
    ∧ mvt_to_json okDecoder [] = Except.ok (decodeTile sampleTile)
    ∧ errDecoder [] = Except.error errMsg
    ∧ mvt_to_json errDecoder [] = Except.error errMsg
    ∧ (decodeTile sampleTile).layers.length = 1 :=
  ⟨rfl,
   (mvt_to_json_error_iff_decode_error okDecoder []).2.2 sampleTile rfl,
   rfl,
   (mvt_to_json_error_iff_decode_error errDecoder []).2.1 errMsg rfl,
   by with_unfolding_all rfl⟩

/-- Pushing inside the last element never changes the number of
elements. -/
theorem pushLast_length (coords : List Json) (pt : Json) :
    (pushLast coords pt).length = coords.length := by
  induction coords with
  | nil => rfl
  | cons j rest ih =>
      cases rest with
      | nil => cases j <;> rfl
      | cons j2 r2 =>
          show (j :: pushLast (j2 :: r2) pt).length = (j :: j2 :: r2).length
          simp [ih]

/-- When the last element is a JSON array, `pushLast` appends the point
inside it. -/
theorem pushLast_append_arr (c : List Json) (a : List Json) (pt : Json) :
    pushLast (c ++ [Json.arr a]) pt = c ++ [Json.arr (a ++ [pt])] := by
  induction c with
  | nil => rfl
  | cons j rest ih =>
      cases rest with
      | nil => rfl
      | cons j2 r2 =>
          show j :: pushLast ((j2 :: r2) ++ [Json.arr a]) pt = _
          rw [ih]
          rfl

/-- A LineTo repetition on any state: the coordinates list is transformed
by `pushLast` and the cursor accumulates the zigzag deltas. -/
theorem repStep_lineTo (extent : Extent) (geom_type : GeomType) (st : GeoState)
    (px py : Nat) :
    repStep extent geom_type false st px py
      = { coordinates := pushLast st.coordinates (Json.arr
            [Json.num (Extent.normalize extent (wrap32 (st.x + decode_zigzag px))),
             Json.num (Extent.normalize extent (wrap32 (st.y + decode_zigzag py)))])
          x := wrap32 (st.x + decode_zigzag px)
          y := wrap32 (st.y + decode_zigzag py) } := by
  simp [repStep]

/-- C10 (implicit behavior of Point features containing LineTo commands):
a LineTo command never appends a new element to a Point feature's flat
point list — whatever the repetition count; if at least one point was
already emitted (the last element being that point's array `[x, y]`),
each LineTo repetition pushes its normalized coordinate pair inside that
most recently emitted point's array, yielding `[x, y, [x1, y1]]`-shaped
values; and in every case the deltas are still accumulated into the
cursor, so later MoveTo points reflect them. -/
theorem point_lineTo_nesting (extent : Extent) :
    (∀ (n : Nat) (rest : List Nat) (st : GeoState),
        ((runReps extent GeomType.point false n rest st).2).coordinates.length
          = st.coordinates.length)
    ∧ (∀ (st : GeoState) (c a : List Json) (px py : Nat),
        st.coordinates = c ++ [Json.arr a] →
        (repStep extent GeomType.point false st px py).coordinates
          = c ++ [Json.arr (a ++ [Json.arr
              [Json.num (Extent.normalize extent (wrap32 (st.x + decode_zigzag px))),
               Json.num (Extent.normalize extent (wrap32 (st.y + decode_zigzag py)))]])])
    ∧ (∀ (st : GeoState) (px py : Nat),
        (repStep extent GeomType.point false st px py).x
            = wrap32 (st.x + decode_zigzag px)
        ∧ (repStep extent GeomType.point false st px py).y
            = wrap32 (st.y + decode_zigzag py)) := by
  refine ⟨?_, ?_, ?_⟩
  · intro n
    induction n with
    | zero => intro rest st; rfl
    | succ n ih =>
        intro rest st
        match rest with
        | [] => rfl
        | [a] => rfl
        | px :: py :: rest =>
            show ((runReps extent GeomType.point false n rest
                (repStep extent GeomType.point false st px py)).2).coordinates.length = _
            rw [ih rest]
            rw [repStep_lineTo]
            exact pushLast_length st.coordinates _
  · intro st c a px py h
    rw [repStep_lineTo]
    show pushLast st.coordinates _ = _
    rw [h]
    exact pushLast_append_arr c a _
  · intro st px py
    rw [repStep_lineTo]
    exact ⟨rfl, rfl⟩

/-- Witness for C10: on a Point feature the stream
`[9, 2, 2, 10, 2, 2, 9, 2, 2]` (MoveTo, then LineTo, then MoveTo) nests
the LineTo point inside the first emitted point and places the second
MoveTo point at the cursor accumulated through the LineTo deltas. -/
theorem point_lineTo_nesting_witness :
    ((runReps 4096 GeomType.point false 3 [] { coordinates := [Json.arr []], x := 0, y := 0 }).2).coordinates.length = 1
    ∧ ({ coordinates := [Json.arr [Json.num (1/4096)]], x := 0, y := 0 } : GeoState).coordinates
        = [] ++ [Json.arr [Json.num (1/4096)]]
    ∧ (repStep 4096 GeomType.point false
        { coordinates := [Json.arr [Json.num (1/4096)]], x := 0, y := 0 } 2 2).coordinates
        = [] ++ [Json.arr ([Json.num (1/4096)] ++ [Json.arr
            [Json.num (Extent.normalize 4096 (wrap32 (0 + decode_zigzag 2))),
             Json.num (Extent.normalize 4096 (wrap32 (0 + decode_zigzag 2)))]])]
    ∧ decode_geometry [9, 2, 2, 10, 2, 2, 9, 2, 2] GeomType.point 4096
        = Json.arr
            [Json.arr [Json.num (1/4096), Json.num (1/4096),
                       Json.arr [Json.num (1/2048), Json.num (1/2048)]],
             Json.arr [Json.num (3/4096), Json.num (3/4096)]] :=
  ⟨(point_lineTo_nesting 4096).1 3 [] { coordinates := [Json.arr []], x := 0, y := 0 },
   rfl,
   (point_lineTo_nesting 4096).2.1
     { coordinates := [Json.arr [Json.num (1/4096)]], x := 0, y := 0 }
     [] [Json.num (1/4096)] 2 2 rfl,
   by with_unfolding_all rfl⟩

/-- Length of a flattened pair list. -/
theorem pairsFlat_length (ps : List (Nat × Nat)) :
    (pairsFlat ps).length = 2 * ps.length := by
  induction ps with
  | nil => rfl
  | cons p ps ih =>
      simp only [pairsFlat, List.flatMap_cons] at ih ⊢
      simp [ih]
      omega

/-- A LineTo command integer with a 32-bit-representable count parses to
command id 2 and that count. -/
theorem parse_command_lineTo (k : Nat) (hk : k < 2^29) :
    parse_command (k * 8 + 2) = (2, k) := by
  have hk' : k < 536870912 := by norm_num at hk; exact hk
  have hlt : k * 8 + 2 < 4294967296 := by omega
  have hmod : (k * 8 + 2) % 4294967296 = k * 8 + 2 := Nat.mod_eq_of_lt hlt
  have h1 : (k * 8 + 2) &&& 7 = 2 := by
    have h := Nat.and_pow_two_sub_one_eq_mod (k * 8 + 2) 3
    norm_num at h
    rw [h]
    omega
  have h2 : (k * 8 + 2) >>> 3 = k := by
    simp [Nat.shiftRight_eq_div_pow]
    omega
  simp [parse_command, u32, hmod, h1, h2]

/-- A repetition loop whose count matches its complete parameter pair
list consumes exactly those pairs, folding `repStep` over them, and
leaves the rest of the stream untouched. -/
theorem runReps_pairs (extent : Extent) (geom_type : GeomType) (isMoveTo : Bool)
    (ps : List (Nat × Nat)) (rest : List Nat) :
    ∀ st : GeoState,
    runReps extent geom_type isMoveTo ps.length (pairsFlat ps ++ rest) st
      = (rest, ps.foldl (fun s p => repStep extent geom_type isMoveTo s p.1 p.2) st) := by
  induction ps with
  | nil => intro st; rfl
  | cons p ps ih =>
      intro st
      have hflat : pairsFlat (p :: ps) ++ rest = p.1 :: p.2 :: (pairsFlat ps ++ rest) := by
        simp [pairsFlat]
      rw [hflat]
      exact ih (repStep extent geom_type isMoveTo st p.1 p.2)

/-- One outer-loop iteration on a command integer parsing to LineTo. -/
theorem decode_geometry_loop_cons_lineTo (extent : Extent) (geom_type : GeomType)
    (fuel cmd_int count : Nat) (rest : List Nat) (st : GeoState)
    (hcmd : parse_command cmd_int = (2, count)) :
    decode_geometry_loop extent geom_type (fuel + 1) (cmd_int :: rest) st
      = decode_geometry_loop extent geom_type fuel
          (runReps extent geom_type false count rest st).1
          (runReps extent geom_type false count rest st).2 := by
  simp [decode_geometry_loop, hcmd]

/-- One outer-loop iteration on a command integer parsing to MoveTo. -/
theorem decode_geometry_loop_cons_moveTo (extent : Extent) (geom_type : GeomType)
    (fuel cmd_int count : Nat) (rest : List Nat) (st : GeoState)
    (hcmd : parse_command cmd_int = (1, count)) :
    decode_geometry_loop extent geom_type (fuel + 1) (cmd_int :: rest) st
      = decode_geometry_loop extent geom_type fuel
          (runReps extent geom_type true count rest st).1
          (runReps extent geom_type true count rest st).2 := by
  simp [decode_geometry_loop, hcmd]

/-- Running the outer loop over a pure LineTo stream folds `repStep`
over all parameter pairs of all blocks. -/
theorem decode_geometry_loop_lineToStream (extent : Extent) (geom_type : GeomType) :
    ∀ (blocks : List (List (Nat × Nat))), BlocksOk blocks →
    ∀ (fuel : Nat), (lineToStream blocks).length ≤ fuel → ∀ (st : GeoState),
    decode_geometry_loop extent geom_type fuel (lineToStream blocks) st
      = blocks.flatten.foldl
          (fun s p => repStep extent geom_type false s p.1 p.2) st := by
  intro blocks
  induction blocks with
  | nil =>
      intro _ fuel _ st
      exact decode_geometry_loop_nil extent geom_type fuel st
  | cons b bs ih =>
      intro hb fuel hfuel st
      have hb1 : b.length < 2^29 := hb b (List.mem_cons_self b bs)
      have hbs : BlocksOk bs := fun x hx => hb x (List.mem_cons_of_mem b hx)
      have hcons : lineToStream (b :: bs)
          = (b.length * 8 + 2) :: (pairsFlat b ++ lineToStream bs) := by
        simp [lineToStream]
      have hlen : (lineToStream (b :: bs)).length
          = 2 * b.length + (lineToStream bs).length + 1 := by
        rw [hcons]
        simp only [List.length_cons, List.length_append, pairsFlat_length]
      cases fuel with
      | zero =>
          exfalso
          rw [hlen] at hfuel
          omega
      | succ fuel =>
          rw [hcons]
          rw [decode_geometry_loop_cons_lineTo extent geom_type fuel (b.length * 8 + 2)
              b.length (pairsFlat b ++ lineToStream bs) st
              (parse_command_lineTo b.length hb1)]
          rw [runReps_pairs extent geom_type false b (lineToStream bs) st]
          show decode_geometry_loop extent geom_type fuel (lineToStream bs)
              (b.foldl (fun s p => repStep extent geom_type false s p.1 p.2) st)
            = ((b :: bs).flatten).foldl
                (fun s p => repStep extent geom_type false s p.1 p.2) st
          rw [ih hbs fuel (by rw [hlen] at hfuel; omega)
              (b.foldl (fun s p => repStep extent geom_type false s p.1 p.2) st)]
          rw [List.flatten_cons, List.foldl_append]

/-- Folding LineTo repetitions over a state holding a single ring appends
all accumulated points inside that ring and leaves the cursor at the
32-bit cumulative sums. -/
theorem foldl_repStep_ring (extent : Extent) (geom_type : GeomType) :
    ∀ (ps : List (Nat × Nat)) (ring : List Json) (x y : Int),
    ps.foldl (fun s p => repStep extent geom_type false s p.1 p.2)
        { coordinates := [Json.arr ring], x := x, y := y }
      = { coordinates := [Json.arr (ring ++ accPoints extent x y (deltasOf ps))],
          x := cumsum32 x (ps.map (fun p => decode_zigzag p.1)),
          y := cumsum32 y (ps.map (fun p => decode_zigzag p.2)) } := by
  intro ps
  induction ps with
  | nil =>
      intro ring x y
      simp [accPoints, deltasOf, cumsum32]
  | cons p ps ih =>
      intro ring x y
      have hstep : repStep extent geom_type false
          { coordinates := [Json.arr ring], x := x, y := y } p.1 p.2
          = { coordinates := [Json.arr (ring ++ [Json.arr
                [Json.num (Extent.normalize extent (wrap32 (x + decode_zigzag p.1))),
                 Json.num (Extent.normalize extent (wrap32 (y + decode_zigzag p.2)))]])],
              x := wrap32 (x + decode_zigzag p.1),
              y := wrap32 (y + decode_zigzag p.2) } := by
        rw [repStep_lineTo]
        simp [pushLast]
      rw [List.foldl_cons, hstep, ih]
      simp [accPoints, deltasOf, cumsum32]

/-- The number of accumulated points equals the number of delta pairs. -/
theorem accPoints_length (extent : Extent) :
    ∀ (ds : List (Int × Int)) (x y : Int),
    (accPoints extent x y ds).length = ds.length := by
  intro ds
  induction ds with
  | nil => intro x y; rfl
  | cons d ds ih => intro x y; simp [accPoints, ih]

/-- Element `k` of the accumulated point list is the 32-bit cumulative
sum of the first `k + 1` deltas on each axis, normalized by the extent. -/
theorem accPoints_getElem (extent : Extent) :
    ∀ (ds : List (Int × Int)) (x y : Int) (k : Nat), k < ds.length →
    (accPoints extent x y ds)[k]?
      = some (Json.arr
          [Json.num (Extent.normalize extent (cumsum32 x ((ds.take (k+1)).map Prod.fst))),
           Json.num (Extent.normalize extent (cumsum32 y ((ds.take (k+1)).map Prod.snd)))]) := by
  intro ds
  induction ds with
  | nil => intro x y k hk; simp at hk
  | cons d ds ih =>
      intro x y k hk
      cases k with
      | zero => simp [accPoints, cumsum32]
      | succ k =>
          have hk' : k < ds.length := by
            simp only [List.length_cons] at hk
            omega
          simp only [accPoints, List.getElem?_cons_succ]
          rw [ih _ _ k hk']
          simp [cumsum32]

/-- C3: a LineString geometry of one single-repetition MoveTo followed by
LineTo commands totalling `blocks.flatten.length` repetitions, all with
their parameter pairs present, decodes to a flat ordered list of exactly
N + 1 coordinate pairs (N the LineTo repetition total); the k-th pair is
the cumulative sum of the zigzag-decoded deltas up to that repetition —
accumulated, as the source's `i32` cursor does, in wrap-around signed
32-bit arithmetic — each axis divided by the layer extent. -/
theorem decode_geometry_linestring_moveTo_lineTo (extent : Extent)
    (x0 y0 : Nat) (blocks : List (List (Nat × Nat))) (hb : BlocksOk blocks) :
    decode_geometry (9 :: x0 :: y0 :: lineToStream blocks) GeomType.linestring extent
      = Json.arr (accPoints extent 0 0
          ((decode_zigzag x0, decode_zigzag y0) :: deltasOf blocks.flatten))
    ∧ (accPoints extent 0 0
          ((decode_zigzag x0, decode_zigzag y0) :: deltasOf blocks.flatten)).length
        = blocks.flatten.length + 1
    ∧ (∀ k, k < blocks.flatten.length + 1 →
        (accPoints extent 0 0
            ((decode_zigzag x0, decode_zigzag y0) :: deltasOf blocks.flatten))[k]?
          = some (Json.arr
              [Json.num (Extent.normalize extent (cumsum32 0
                  (((((decode_zigzag x0, decode_zigzag y0)
                      :: deltasOf blocks.flatten)).take (k+1)).map Prod.fst))),
               Json.num (Extent.normalize extent (cumsum32 0
                  (((((decode_zigzag x0, decode_zigzag y0)
                      :: deltasOf blocks.flatten)).take (k+1)).map Prod.snd)))])) := by
  refine ⟨?_, ?_, ?_⟩
  · have h2 : repStep extent GeomType.linestring true
        { coordinates := [], x := 0, y := 0 } x0 y0
        = { coordinates := [Json.arr [Json.arr
              [Json.num (Extent.normalize extent (wrap32 (0 + decode_zigzag x0))),
               Json.num (Extent.normalize extent (wrap32 (0 + decode_zigzag y0)))]]],
            x := wrap32 (0 + decode_zigzag x0),
            y := wrap32 (0 + decode_zigzag y0) } := by
      simp [repStep, pushLast]
    have h0 : producedCoords (9 :: x0 :: y0 :: lineToStream blocks)
        GeomType.linestring extent
        = (decode_geometry_loop extent GeomType.linestring
            ((lineToStream blocks).length + 1 + 1) (lineToStream blocks)
            (repStep extent GeomType.linestring true
              { coordinates := [], x := 0, y := 0 } x0 y0)).coordinates := by
      simp only [producedCoords, List.length_cons]
      rw [decode_geometry_loop_cons_moveTo extent GeomType.linestring
          ((lineToStream blocks).length + 1 + 1) 9 1 (x0 :: y0 :: lineToStream blocks)
          { coordinates := [], x := 0, y := 0 } (by decide)]
      rfl
    have hprod : producedCoords (9 :: x0 :: y0 :: lineToStream blocks)
        GeomType.linestring extent
        = [Json.arr (accPoints extent 0 0
            ((decode_zigzag x0, decode_zigzag y0) :: deltasOf blocks.flatten))] := by
      rw [h0, h2]
      rw [decode_geometry_loop_lineToStream extent GeomType.linestring blocks hb
          ((lineToStream blocks).length + 1 + 1) (by omega) _]
      rw [foldl_repStep_ring extent GeomType.linestring blocks.flatten]
      simp [accPoints]
    simp [decode_geometry, hprod]
  · rw [accPoints_length]
    simp only [List.length_cons, deltasOf, List.length_map]
  · intro k hk
    have hlen : k < ((decode_zigzag x0, decode_zigzag y0)
        :: deltasOf blocks.flatten).length := by
      simp only [List.length_cons, deltasOf, List.length_map]
      exact hk
    exact accPoints_getElem extent _ 0 0 k hlen

/-- Witness for C3: the stream `[9, 2, 2, 18, 2, 0, 0, 2]` — MoveTo(1)
then LineTo(2) — decodes to the three cumulative points
`(1, 1), (2, 1), (2, 2)` normalized by 4096. -/
theorem decode_geometry_linestring_example :
    BlocksOk [[(2, 0), (0, 2)]]
    ∧ decode_geometry (9 :: 2 :: 2 :: lineToStream [[(2, 0), (0, 2)]])
        GeomType.linestring 4096
        = Json.arr (accPoints 4096 0 0
            ((decode_zigzag 2, decode_zigzag 2) :: deltasOf [[(2, 0), (0, 2)]].flatten))
    ∧ decode_geometry [9, 2, 2, 18, 2, 0, 0, 2] GeomType.linestring 4096
        = Json.arr [Json.arr [Json.num (1/4096), Json.num (1/4096)],
                    Json.arr [Json.num (1/2048), Json.num (1/4096)],
                    Json.arr [Json.num (1/2048), Json.num (1/2048)]] :=
  ⟨by decide,
   (decode_geometry_linestring_moveTo_lineTo 4096 2 2 [[(2, 0), (0, 2)]] (by decide)).1,
   by with_unfolding_all rfl⟩

end Mvtcurl
